import Mathlib

/-!
Shallow embedding of the request-dispatch core of the `arcgis-rest-js` repository.

The dispatcher (`request` in `src/packages/rest-request/src/request.ts`) merges
parameter and option defaults, resolves an authentication token, encodes the
request as a query string (GET) or a form body (POST), performs the network
call through an abstract transport, decodes the response according to the
declared `f` format, and checks JSON/GeoJSON responses for embedded errors.

JavaScript objects used as parameter bags are embedded as ordered association
lists of `String × Value`; object spread (`{...a, ...b}`) is `spreadMerge`;
property assignment (`params.token = t`) is `setParam`.  Promises carry no
concurrency here (each dispatch is one linear chain), so asynchronous steps
are embedded as plain function application, preserving their data-flow order.
The `fetch` transport is an explicit function argument `FetchCall → Response`.

Helpers that request.ts imports from `./utils/*` (`checkForErrors`,
`encodeQueryString`, `encodeFormData`) and the auth package's `generateToken`
are not part of the repository snapshot (only their callers/tests are); they
are modelled from the specification, and carry doc comments saying so.
-/

namespace ArcGIS

/-- The values a parameter bag or decoded JSON body can hold: strings,
numbers, booleans, binary blobs (byte lists), JSON null, arrays and objects. -/
inductive Value where
  | null : Value
  | str : String → Value
  | num : Int → Value
  | bool : Bool → Value
  | blob : List Nat → Value
  | arr : List Value → Value
  | obj : List (String × Value) → Value

/-- A JavaScript object used as a dynamic bag (`IParams`, decoded JSON
objects): an ordered association list from string keys to values. -/
abbrev Params := List (String × Value)

/-- Property read `obj[k]`: the value at the first occurrence of key `k`. -/
def lookupParam (k : String) (ps : Params) : Option Value :=
  (ps.find? (fun p => p.1 == k)).map (fun p => p.2)

/-- Property write `obj[k] = v`: overwrite the value at key `k` if the key is
present, otherwise append the new key. -/
def setParam (ps : Params) (k : String) (v : Value) : Params :=
  if (lookupParam k ps).isSome then
    ps.map (fun p => if p.1 == k then (k, v) else p)
  else ps ++ [(k, v)]

/-- Object spread `{...base, ...override}`: keys of `base` keep their
position but take the value from `override` when it also has the key; keys
only in `override` follow in their own order. -/
def spreadMerge (base override : Params) : Params :=
  base.map (fun p => (p.1, (lookupParam p.1 override).getD p.2)) ++
    override.filter (fun p => (lookupParam p.1 base).isNone)

/-- HTTP methods used by the ArcGIS REST API (`HTTPMethods` in request.ts). -/
inductive HTTPMethods where
  | GET : HTTPMethods
  | POST : HTTPMethods
deriving DecidableEq

/-- `IAuthenticationManager`: resolves a token string for a URL.  The promise
returned by `getToken` is embedded as its resolved value. -/
structure IAuthenticationManager where
  getToken : String → String

/-- `IRequestOptions`: optional HTTP method and authentication manager.
`none` stands for an absent property. -/
structure IRequestOptions where
  httpMethod : Option HTTPMethods := none
  authentication : Option IAuthenticationManager := none

/-- The destructuring `{...{httpMethod: "POST"}, ...requestOptions}` in
request.ts, projected to `httpMethod`. -/
def resolveHttpMethod (requestOptions : Option IRequestOptions) : HTTPMethods :=
  match requestOptions with
  | none => HTTPMethods.POST
  | some o => o.httpMethod.getD HTTPMethods.POST

/-- The same destructuring, projected to `authentication` (which has no
default). -/
def resolveAuth (requestOptions : Option IRequestOptions) :
    Option IAuthenticationManager :=
  match requestOptions with
  | none => none
  | some o => o.authentication

/-- A part of a multipart form body: a string part or a binary file part. -/
inductive FormPart where
  | str : String → FormPart
  | file : List Nat → FormPart

/-- A fetch `Response`, viewed through the three body readers the dispatcher
uses (`response.json()`, `response.text()`, `response.blob()`). -/
structure Response where
  jsonBody : Value
  textBody : String
  blobBody : List Nat

/-- The single network call `fetch(url, options)` issued by one dispatch:
the final URL, the method, and the optional form body. -/
structure FetchCall where
  url : String
  method : HTTPMethods
  body : Option (List (String × FormPart))

/-- The result of decoding a response body: structured JSON, plain text, an
opaque binary object, or the undefined value produced when no decode branch
matches. -/
inductive Decoded where
  | json : Value → Decoded
  | text : String → Decoded
  | blob : List Nat → Decoded
  | undef : Decoded

/-- JSON serialization of a `Value` (`JSON.stringify`); used by the form
encoder for structured values. -/
def jsonStringify : Value → String
  | Value.null => "null"
  | Value.str s => "\"" ++ s ++ "\""
  | Value.num n => toString n
  | Value.bool b => if b then "true" else "false"
  | Value.blob _ => "\x7b\x7d"
  | Value.arr vs =>
      "[" ++ String.intercalate "," (vs.attach.map (fun v => jsonStringify v.1)) ++ "]"
  | Value.obj fs =>
      "\x7b" ++
        String.intercalate ","
          (fs.attach.map (fun f => "\"" ++ f.1.1 ++ "\":" ++ jsonStringify f.1.2)) ++
        "\x7d"
decreasing_by
  · simp only [Value.arr.sizeOf_spec]
    have := List.sizeOf_lt_of_mem v.2
    omega
  · simp only [Value.obj.sizeOf_spec]
    have h1 := List.sizeOf_lt_of_mem f.2
    have h2 : sizeOf f.1.2 < sizeOf f.1 := by
      obtain ⟨a, b⟩ := f.1
      simp only [Prod.mk.sizeOf_spec]
      omega
    omega

/-- The textual rendering of a parameter value inside a query string:
strings verbatim, numbers and booleans in decimal/`true`/`false` form,
structured values JSON-stringified. -/
def paramToString (v : Value) : String :=
  match v with
  | Value.str s => s
  | Value.num n => toString n
  | Value.bool b => if b then "true" else "false"
  | Value.null => "null"
  | Value.blob _ => ""
  | v => jsonStringify v

/-- Is the value a scalar (string, number or boolean)?  Scalar pairs are the
ones the query-string round-trip property of §4.3/§8 quantifies over. -/
def isScalarValue : Value → Bool
  | Value.str _ => true
  | Value.num _ => true
  | Value.bool _ => true
  | _ => false

/-- Does the character survive `encodeURIComponent` unescaped?  The
unreserved set is `A-Z a-z 0-9 - _ . ! ~ * ' ( )`. -/
def unreservedChar (c : Char) : Bool :=
  (65 ≤ c.toNat && c.toNat ≤ 90) || (97 ≤ c.toNat && c.toNat ≤ 122) ||
  (48 ≤ c.toNat && c.toNat ≤ 57) ||
  c.toNat == 45 || c.toNat == 95 || c.toNat == 46 || c.toNat == 33 ||
  c.toNat == 126 || c.toNat == 42 || c.toNat == 39 || c.toNat == 40 || c.toNat == 41

/-- The UTF-8 encoding of one Unicode scalar value, as a byte list. -/
def utf8Bytes (c : Char) : List Nat :=
  let n := c.toNat
  if n < 128 then [n]
  else if n < 2048 then [192 + n / 64, 128 + n % 64]
  else if n < 65536 then [224 + n / 4096, 128 + n / 64 % 64, 128 + n % 64]
  else [240 + n / 262144, 128 + n / 4096 % 64, 128 + n / 64 % 64, 128 + n % 64]

/-- The uppercase hexadecimal digit for `n < 16`. -/
def toHexDigit (n : Nat) : Char :=
  Char.ofNat (if n < 10 then 48 + n else 55 + n)

/-- The value of a hexadecimal digit character (0 for junk). -/
def hexVal (c : Char) : Nat :=
  if 48 ≤ c.toNat && c.toNat ≤ 57 then c.toNat - 48
  else if 65 ≤ c.toNat && c.toNat ≤ 70 then c.toNat - 55
  else if 97 ≤ c.toNat && c.toNat ≤ 102 then c.toNat - 87
  else 0

/-- The `%XY` escape of one byte. -/
def percentByte (b : Nat) : List Char :=
  ['%', toHexDigit (b / 16), toHexDigit (b % 16)]

/-- `encodeURIComponent` on one character: kept verbatim when unreserved,
otherwise every UTF-8 byte is `%`-escaped. -/
def encodeChar (c : Char) : List Char :=
  if unreservedChar c then [c] else (utf8Bytes c).flatMap percentByte

/-- `encodeURIComponent`: standard URL component percent-encoding. -/
def encodeComponent (s : String) : String :=
  String.mk (s.data.flatMap encodeChar)

/-- Percent-decoding to a byte list, one character at a time.  The state is
`none` outside an escape, `some none` right after a `%`, and `some (some hi)`
after a `%` and its first hex digit. -/
def decodeBytesAux : Option (Option Nat) → List Char → List Nat
  | _, [] => []
  | none, c :: rest =>
      if c == '%' then decodeBytesAux (some none) rest
      else c.toNat :: decodeBytesAux none rest
  | some none, c :: rest => decodeBytesAux (some (some (hexVal c))) rest
  | some (some hi), c :: rest => (hi * 16 + hexVal c) :: decodeBytesAux none rest

/-- Percent-decoding to a byte list: `%XY` escapes become one byte, other
characters stand for their own (ASCII) byte. -/
def decodeBytes (cs : List Char) : List Nat := decodeBytesAux none cs

/-- UTF-8 decoding of a byte list, one byte at a time.  The state holds the
partial scalar value and the number of continuation bytes still expected. -/
def utf8DecodeAux : Option (Nat × Nat) → List Nat → List Nat
  | _, [] => []
  | none, b :: rest =>
      if b < 128 then b :: utf8DecodeAux none rest
      else if b < 224 then utf8DecodeAux (some (b - 192, 1)) rest
      else if b < 240 then utf8DecodeAux (some (b - 224, 2)) rest
      else utf8DecodeAux (some (b - 240, 3)) rest
  | some (acc, k), b :: rest =>
      if k ≤ 1 then (acc * 64 + (b - 128)) :: utf8DecodeAux none rest
      else utf8DecodeAux (some (acc * 64 + (b - 128), k - 1)) rest

/-- UTF-8 decoding of a byte list to a list of code points. -/
def utf8Decode (bs : List Nat) : List Nat := utf8DecodeAux none bs

/-- Inverse of `encodeComponent`: percent-decode to bytes, then UTF-8 decode. -/
def decodeComponent (s : String) : String :=
  String.mk ((utf8Decode (decodeBytes s.data)).map Char.ofNat)

/-- Modelled from the spec: the scalar key/value pairs a parameter bag
contributes to a query string (§4.3) — array values expand into one pair per
element and object values into one pair per field, everything else is a
single pair with a textual value. -/
def queryStringPairs (params : Params) : List (String × String) :=
  params.flatMap (fun p =>
    match p.2 with
    | Value.arr vs => vs.map (fun v => (p.1, paramToString v))
    | Value.obj fs => fs.map (fun q => (p.1, paramToString q.2))
    | v => [(p.1, paramToString v)])

/-- Joining the encoded `key=value` chunks with `&`. -/
def joinAmp : List (List Char) → List Char
  | [] => []
  | [c] => c
  | c :: rest => c ++ '&' :: joinAmp rest

/-- Modelled from the spec: `encodeQueryString`
(src/packages/rest-request/src/utils/encode-query-string is not in the
repository snapshot; §4.3): percent-encode each key and value per standard
URL component encoding, join each pair with `=` and the pairs with `&`. -/
def encodeQueryString (params : Params) : String :=
  String.mk (joinAmp ((queryStringPairs params).map
    (fun p => (encodeComponent p.1).data ++ '=' :: (encodeComponent p.2).data)))

/-- Modelled from the spec: parsing one `key=value` chunk of a query string
back into a decoded pair. -/
def parseChunk (chunk : List Char) : String × String :=
  match chunk.splitOn '=' with
  | [k, v] => (decodeComponent (String.mk k), decodeComponent (String.mk v))
  | [k] => (decodeComponent (String.mk k), "")
  | _ => ("", "")

/-- Modelled from the spec: the percent-decoder used to state the §4.3/§8
round-trip property — split the query string on `&`, split each chunk on
`=`, and percent-decode each component. -/
def decodeQueryString (s : String) : List (String × String) :=
  if s.data.isEmpty then [] else (s.data.splitOn '&').map parseChunk

/-- Modelled from the spec: `encodeFormData`
(src/packages/rest-request/src/utils/encode-form-data is not in the
repository snapshot; §4.4): append each pair to a multipart form container —
blob values as file parts, primitives stringified losslessly, structured
values JSON-stringified. -/
def encodeFormData (params : Params) : List (String × FormPart) :=
  params.map (fun p =>
    (p.1,
      match p.2 with
      | Value.blob bs => FormPart.file bs
      | Value.str s => FormPart.str s
      | Value.num n => FormPart.str (toString n)
      | Value.bool b => FormPart.str (if b then "true" else "false")
      | Value.null => FormPart.str "null"
      | v => FormPart.str (jsonStringify v)))

/-- `RequestError`: the structured application-level error built from an
`error` indicator embedded in a decoded JSON/GeoJSON body. -/
structure RequestError where
  message : String
  code : Value
  messageCode : Option Value
  details : Option Value
  response : Value

/-- Modelled from the spec: `checkForErrors`
(src/packages/rest-request/src/utils/check-for-errors is not in the
repository snapshot; §4.2): when the decoded structure carries an `error`
field that is an object with a `code`, fail with a `RequestError` holding the
embedded message (falling back to "UNKNOWN_ERROR_CODE" when the message is
missing), the code, the optional `messageCode` sub-code, the optional
`details` list and the whole original body; otherwise pass the input through
unchanged. -/
def checkForErrors (data : Value) : Except RequestError Value :=
  match data with
  | Value.obj fields =>
    match lookupParam "error" fields with
    | some (Value.obj errFields) =>
      match lookupParam "code" errFields with
      | some code =>
          Except.error
            { message :=
                match lookupParam "message" errFields with
                | some (Value.str m) => m
                | _ => "UNKNOWN_ERROR_CODE"
              code := code
              messageCode := lookupParam "messageCode" errFields
              details := lookupParam "details" errFields
              response := data }
      | none => Except.ok data
    | _ => Except.ok data
  | _ => Except.ok data

/-- The default for the `requestParams` argument of `request`. -/
def defaultParams : Params := [("f", Value.str "json")]

/-- The parameter bag as it stands when the request is encoded: defaults
merged under the caller's params, then the resolved token written to
`params.token` when it is non-empty. -/
def requestParamsFinal (url : String) (requestParams : Params)
    (requestOptions : Option IRequestOptions) : Params :=
  let params := spreadMerge defaultParams requestParams
  let token :=
    match resolveAuth requestOptions with
    | some authentication => authentication.getToken url
    | none => ""
  if token.length > 0 then setParam params "token" (Value.str token) else params

/-- The GET/POST encoding branch of request.ts: GET appends the
`?`-prefixed query string and sends no body, POST keeps the URL and sends
the form-encoded body. -/
def issuedCall (url : String) (params : Params) (httpMethod : HTTPMethods) :
    FetchCall :=
  match httpMethod with
  | HTTPMethods.GET =>
      { url := url ++ "?" ++ encodeQueryString params
        method := HTTPMethods.GET
        body := none }
  | HTTPMethods.POST =>
      { url := url
        method := HTTPMethods.POST
        body := some (encodeFormData params) }

/-- The single `fetch` call one dispatch issues. -/
def requestIssuedCall (url : String) (requestParams : Params)
    (requestOptions : Option IRequestOptions) : FetchCall :=
  issuedCall url (requestParamsFinal url requestParams requestOptions)
    (resolveHttpMethod requestOptions)

/-- The trace of network calls of one dispatch: request.ts calls `fetch`
exactly once. -/
def requestCalls (url : String) (requestParams : Params)
    (requestOptions : Option IRequestOptions) : List FetchCall :=
  [requestIssuedCall url requestParams requestOptions]

/-- The decode switch of request.ts, keyed on the resolved `params.f`. -/
def decodeResponse (f : Option Value) (r : Response) : Decoded :=
  match f with
  | some (Value.str s) =>
    if s = "json" then Decoded.json r.jsonBody
    else if s = "geojson" then Decoded.json r.jsonBody
    else if s = "image" then Decoded.blob r.blobBody
    else if s = "html" then Decoded.text r.textBody
    else if s = "text" then Decoded.text r.textBody
    else if s = "zip" then Decoded.blob r.blobBody
    else Decoded.undef
  | _ => Decoded.undef

/-- The decoded body of one dispatch, before the post-decode error check. -/
def requestDecoded (transport : FetchCall → Response) (url : String)
    (requestParams : Params) (requestOptions : Option IRequestOptions) :
    Decoded :=
  decodeResponse (lookupParam "f" (requestParamsFinal url requestParams requestOptions))
    (transport (requestIssuedCall url requestParams requestOptions))

/-- The guard `params.f === "json" || params.f === "geojson"` of the
post-decode validation step. -/
def isJsonLikeFormat (f : Option Value) : Bool :=
  match f with
  | some (Value.str s) => s == "json" || s == "geojson"
  | _ => false

/-- `request` from request.ts: merge defaults, resolve the token, encode and
issue the call through `transport`, decode the body by format, and check
JSON/GeoJSON results for embedded errors.  A rejected promise is
`Except.error`. -/
def request (transport : FetchCall → Response) (url : String)
    (requestParams : Params := defaultParams)
    (requestOptions : Option IRequestOptions := none) :
    Except RequestError Decoded :=
  let data := requestDecoded transport url requestParams requestOptions
  if isJsonLikeFormat (lookupParam "f" (requestParamsFinal url requestParams requestOptions)) then
    match data with
    | Decoded.json v => (checkForErrors v).map (fun _ => data)
    | _ => Except.ok data
  else Except.ok data

/-- Credentials accepted by `generateToken`. -/
structure ICredentials where
  username : String
  password : String

/-- Modelled from the spec: the fixed parameter bag `generateToken` hands to
the dispatcher (§6; the rest-auth source is not in the repository snapshot,
only its test). -/
def generateTokenParams (credentials : ICredentials) : Params :=
  [("username", Value.str credentials.username),
   ("password", Value.str credentials.password)]

/-- Modelled from the spec: `generateToken(url, credentials)` — a thin call
into the dispatcher with fixed params (§6), resolving with the decoded
`{token, expires}` response body. -/
def generateToken (transport : FetchCall → Response) (url : String)
    (credentials : ICredentials) : Except RequestError Decoded :=
  request transport url (generateTokenParams credentials) none

/-- The network calls one `generateToken` invocation issues. -/
def generateTokenCalls (url : String) (credentials : ICredentials) :
    List FetchCall :=
  requestCalls url (generateTokenParams credentials) none

/-! ### Association-list lemmas -/

theorem lookupParam_cons (k : String) (p : String × Value) (l : Params) :
    lookupParam k (p :: l) = if p.1 == k then some p.2 else lookupParam k l := by
  by_cases h : p.1 == k
  · simp [lookupParam, List.find?_cons_of_pos, h]
  · simp only [Bool.not_eq_true] at h
    simp [lookupParam, List.find?_cons_of_neg, h]

theorem lookupParam_append (k : String) (l1 l2 : Params) :
    lookupParam k (l1 ++ l2) = (lookupParam k l1).or (lookupParam k l2) := by
  simp only [lookupParam, List.find?_append]
  cases l1.find? (fun p => p.1 == k) <;> simp

theorem lookupParam_filter (k : String) (l : Params) (q : String × Value → Bool)
    (h : ∀ p ∈ l, p.1 = k → q p = true) :
    lookupParam k (l.filter q) = lookupParam k l := by
  induction l with
  | nil => rfl
  | cons p l ih =>
    have ihl := ih (fun q hq => h q (List.mem_cons_of_mem p hq))
    rw [List.filter_cons]
    by_cases hq : q p = true
    · rw [if_pos hq, lookupParam_cons, lookupParam_cons, ihl]
    · have hk : p.1 ≠ k := fun hkk => hq (h p (List.mem_cons_self p l) hkk)
      have hbk : (p.1 == k) = false := by simp [hk]
      rw [if_neg hq, ihl, lookupParam_cons, hbk]
      simp

theorem lookupParam_map_snd (k : String) (l : Params) (g : String × Value → Value) :
    lookupParam k (l.map (fun p => (p.1, g p))) =
      (l.find? (fun p => p.1 == k)).map (fun p => g p) := by
  induction l with
  | nil => rfl
  | cons p l ih =>
    rw [List.map_cons, lookupParam_cons, List.find?_cons]
    by_cases h : p.1 == k
    · simp [h]
    · simp only [Bool.not_eq_true] at h
      simp [h, ih]

theorem lookupParam_spreadMerge (k : String) (base override : Params) :
    lookupParam k (spreadMerge base override) =
      (lookupParam k override).or (lookupParam k base) := by
  unfold spreadMerge
  rw [lookupParam_append, lookupParam_map_snd]
  rcases hfb : base.find? (fun p => p.1 == k) with _ | p0
  · have hb : lookupParam k base = none := by simp [lookupParam, hfb]
    rw [lookupParam_filter k override _ (fun p hp hpk => by simp [hpk, hb]), hfb, hb]
    simp
  · have hp0 : p0.1 = k := by
      have := List.find?_some hfb
      simpa using this
    have hb : lookupParam k base = some p0.2 := by simp [lookupParam, hfb]
    rw [hfb, hb]
    simp only [Option.map_some', hp0]
    cases ho : lookupParam k override with
    | none => simp [ho]
    | some v => simp [ho]

theorem lookupParam_setParam (ps : Params) (k : String) (v : Value) :
    lookupParam k (setParam ps k v) = some v := by
  unfold setParam
  by_cases h : (lookupParam k ps).isSome
  · rw [if_pos h]
    induction ps with
    | nil => simp [lookupParam] at h
    | cons p l ih =>
      rw [List.map_cons]
      by_cases hp : (p.1 == k) = true
      · rw [if_pos hp, lookupParam_cons]
        simp
      · have hpf : (p.1 == k) = false := by simpa using hp
        rw [if_neg hp, lookupParam_cons]
        simp only [hpf, Bool.false_eq_true, if_false]
        apply ih
        rw [lookupParam_cons] at h
        simpa [hpf] using h
  · rw [if_neg h, lookupParam_append]
    simp only [Option.not_isSome_iff_eq_none] at h
    rw [h, Option.none_or, lookupParam_cons]
    simp

theorem setParam_ne_nil (ps : Params) (k : String) (v : Value) (h : ps ≠ []) :
    setParam ps k v ≠ [] := by
  unfold setParam
  split
  · simpa using h
  · simp

theorem spreadMerge_default_ne_nil (p : Params) : spreadMerge defaultParams p ≠ [] := by
  simp [spreadMerge, defaultParams]

theorem requestParamsFinal_ne_nil (url : String) (p : Params)
    (o : Option IRequestOptions) : requestParamsFinal url p o ≠ [] := by
  simp only [requestParamsFinal]
  cases resolveAuth o <;> split <;>
    first
      | exact setParam_ne_nil _ _ _ (spreadMerge_default_ne_nil p)
      | exact spreadMerge_default_ne_nil p

/-! ### Claim theorems: dispatch encoding, decoding and merging -/

/-- C1: for every dispatch call, when the resolved httpMethod is GET the
network call has no body and its URL is the given URL followed by `?` and
the query-string encoding of the merged params; when it is POST the call
carries the form-data encoding of the merged params as a non-empty body and
the URL is unmodified. -/
theorem request_get_query_post_body (url : String) (p : Params)
    (o : Option IRequestOptions) :
    (resolveHttpMethod o = HTTPMethods.GET →
      requestIssuedCall url p o =
        { url := url ++ "?" ++ encodeQueryString (requestParamsFinal url p o)
          method := HTTPMethods.GET
          body := none }) ∧
    (resolveHttpMethod o = HTTPMethods.POST →
      requestIssuedCall url p o =
        { url := url
          method := HTTPMethods.POST
          body := some (encodeFormData (requestParamsFinal url p o)) } ∧
      encodeFormData (requestParamsFinal url p o) ≠ []) := by
  constructor
  · intro h
    unfold requestIssuedCall
    rw [h]
    rfl
  · intro h
    unfold requestIssuedCall
    rw [h]
    refine ⟨rfl, ?_⟩
    intro hc
    exact requestParamsFinal_ne_nil url p o (by simpa [encodeFormData] using hc)

theorem request_get_query_post_body_witness :
    (requestIssuedCall "https://example.com/a" defaultParams
        (some { httpMethod := some HTTPMethods.GET }) =
      { url := "https://example.com/a" ++ "?" ++
          encodeQueryString (requestParamsFinal "https://example.com/a" defaultParams
            (some { httpMethod := some HTTPMethods.GET }))
        method := HTTPMethods.GET
        body := none }) ∧
    (requestIssuedCall "https://example.com/a" defaultParams none =
      { url := "https://example.com/a"
        method := HTTPMethods.POST
        body := some (encodeFormData (requestParamsFinal "https://example.com/a" defaultParams none)) } ∧
      encodeFormData (requestParamsFinal "https://example.com/a" defaultParams none) ≠ []) :=
  ⟨(request_get_query_post_body "https://example.com/a" defaultParams
      (some { httpMethod := some HTTPMethods.GET })).1 rfl,
   (request_get_query_post_body "https://example.com/a" defaultParams none).2 rfl⟩

/-- C2: the response body is decoded according to the resolved `f` format of
the merged params — `json`/`geojson` parse the body as structured JSON,
`text`/`html` read it as a plain string, `image`/`zip` read it as an opaque
binary object — and the decode branch of a dispatch is the one function
`decodeResponse` of that single resolved format value. -/
theorem request_decode_by_format :
    (∀ r : Response,
      decodeResponse (some (Value.str "json")) r = Decoded.json r.jsonBody ∧
      decodeResponse (some (Value.str "geojson")) r = Decoded.json r.jsonBody ∧
      decodeResponse (some (Value.str "text")) r = Decoded.text r.textBody ∧
      decodeResponse (some (Value.str "html")) r = Decoded.text r.textBody ∧
      decodeResponse (some (Value.str "image")) r = Decoded.blob r.blobBody ∧
      decodeResponse (some (Value.str "zip")) r = Decoded.blob r.blobBody) ∧
    (∀ (transport : FetchCall → Response) (url : String) (p : Params)
        (o : Option IRequestOptions),
      requestDecoded transport url p o =
        decodeResponse (lookupParam "f" (requestParamsFinal url p o))
          (transport (requestIssuedCall url p o))) := by
  refine ⟨fun r => ⟨rfl, ?_, ?_, ?_, ?_, ?_⟩, fun _ _ _ _ => rfl⟩ <;> rfl

/-- C4: the post-decode error-indicator check runs only when the resolved
format is `json` or `geojson`; for every other format the decoded value is
resolved unchanged, without inspection — in particular (witness) a body
shaped like `{error: ...}` under format `image` resolves as binary data. -/
theorem request_error_check_only_json_like (transport : FetchCall → Response)
    (url : String) (p : Params) (o : Option IRequestOptions)
    (hf : isJsonLikeFormat (lookupParam "f" (requestParamsFinal url p o)) = false) :
    request transport url p o = Except.ok (requestDecoded transport url p o) := by
  simp [request, hf]

theorem request_error_check_only_json_like_witness :
    request
        (fun _ =>
          { jsonBody := Value.obj [("error", Value.obj [("code", Value.num 400)])]
            textBody := ""
            blobBody := [7, 7, 7] })
        "https://example.com/a" [("f", Value.str "image")] none =
      Except.ok (Decoded.blob [7, 7, 7]) := by
  have h := request_error_check_only_json_like
    (fun _ =>
      { jsonBody := Value.obj [("error", Value.obj [("code", Value.num 400)])]
        textBody := ""
        blobBody := [7, 7, 7] })
    "https://example.com/a" [("f", Value.str "image")] none rfl
  exact h.trans rfl

/-- C6: the effective params are the default `{f: "json"}` shallow-merged
under the caller's params (caller fields override field-by-field), and the
effective options resolve `httpMethod` to the caller's value with default
POST and `authentication` to none when absent; the default `requestParams`
argument has format `json`. -/
theorem request_merge_defaults :
    (∀ (k : String) (p : Params),
      lookupParam k (spreadMerge defaultParams p) =
        (lookupParam k p).or (lookupParam k defaultParams)) ∧
    resolveHttpMethod none = HTTPMethods.POST ∧
    (∀ o : IRequestOptions,
      resolveHttpMethod (some o) = o.httpMethod.getD HTTPMethods.POST) ∧
    resolveAuth none = none ∧
    lookupParam "f" defaultParams = some (Value.str "json") :=
  ⟨fun k p => lookupParam_spreadMerge k defaultParams p, rfl, fun _ => rfl, rfl, rfl⟩

theorem string_length_pos (s : String) (h : s ≠ "") : 0 < s.length := by
  cases s with
  | mk data =>
    cases data with
    | nil => exact absurd rfl h
    | cons c cs => simp [String.length]

/-- C5: with an authentication provider whose token resolves to a non-empty
string, the params handed to the request encoder carry a `token` field equal
to that string (and the issued call is encoded from exactly those
token-injected params, so token resolution precedes encoding); with no
provider, the params are the plain merge with no token added. -/
theorem request_token_injection (url : String) (p : Params) :
    (∀ (o : Option IRequestOptions) (a : IAuthenticationManager),
      resolveAuth o = some a → a.getToken url ≠ "" →
      lookupParam "token" (requestParamsFinal url p o) =
        some (Value.str (a.getToken url)) ∧
      requestIssuedCall url p o =
        issuedCall url (requestParamsFinal url p o) (resolveHttpMethod o)) ∧
    (∀ o : Option IRequestOptions, resolveAuth o = none →
      requestParamsFinal url p o = spreadMerge defaultParams p) := by
  constructor
  · intro o a ha ht
    refine ⟨?_, rfl⟩
    have hlen : (a.getToken url).length > 0 := string_length_pos _ ht
    simp only [requestParamsFinal, ha]
    rw [if_pos hlen]
    exact lookupParam_setParam _ _ _
  · intro o ha
    simp only [requestParamsFinal, ha]
    simp

theorem request_token_injection_witness :
    (lookupParam "token"
        (requestParamsFinal "https://example.com/a" []
          (some { authentication := some ⟨fun _ => "SECRET"⟩ })) =
      some (Value.str "SECRET") ∧
      requestIssuedCall "https://example.com/a" []
          (some { authentication := some ⟨fun _ => "SECRET"⟩ }) =
        issuedCall "https://example.com/a"
          (requestParamsFinal "https://example.com/a" []
            (some { authentication := some ⟨fun _ => "SECRET"⟩ }))
          (resolveHttpMethod (some { authentication := some ⟨fun _ => "SECRET"⟩ }))) ∧
    requestParamsFinal "https://example.com/a" [] none =
      spreadMerge defaultParams [] :=
  ⟨(request_token_injection "https://example.com/a" []).1
      (some { authentication := some ⟨fun _ => "SECRET"⟩ }) ⟨fun _ => "SECRET"⟩
      rfl (by decide),
   (request_token_injection "https://example.com/a" []).2 none rfl⟩

/-- C7: a dispatch whose resolved `f` format is a string matching none of
the six recognized formats decodes to the undefined value and resolves with
it silently (`Except.ok Decoded.undef`), with no error raised. -/
theorem request_unmatched_format_undef (transport : FetchCall → Response)
    (url : String) (p : Params) (o : Option IRequestOptions) (s : String)
    (hs : lookupParam "f" (requestParamsFinal url p o) = some (Value.str s))
    (h1 : s ≠ "json") (h2 : s ≠ "geojson") (h3 : s ≠ "text") (h4 : s ≠ "html")
    (h5 : s ≠ "image") (h6 : s ≠ "zip") :
    request transport url p o = Except.ok Decoded.undef := by
  have hd : requestDecoded transport url p o = Decoded.undef := by
    unfold requestDecoded
    rw [hs]
    simp [decodeResponse, h1, h2, h3, h4, h5, h6]
  have hj : isJsonLikeFormat (lookupParam "f" (requestParamsFinal url p o)) = false := by
    rw [hs]
    simp [isJsonLikeFormat, h1, h2]
  simp [request, hj, hd]

theorem request_unmatched_format_undef_witness :
    request (fun _ => { jsonBody := Value.null, textBody := "x", blobBody := [1] })
        "https://example.com/a" [("f", Value.str "csv")] none =
      Except.ok Decoded.undef :=
  request_unmatched_format_undef
    (fun _ => { jsonBody := Value.null, textBody := "x", blobBody := [1] })
    "https://example.com/a" [("f", Value.str "csv")] none "csv" rfl
    (by decide) (by decide) (by decide) (by decide) (by decide) (by decide)

/-- C10: an authentication provider that resolves to the empty string adds
no `token` field — the final params equal the plain merge, and the issued
call is identical to the one produced with no provider at all (for the same
resolved method). -/
theorem request_empty_token_not_added (url : String) (p : Params) :
    ∀ (o : Option IRequestOptions) (a : IAuthenticationManager),
      resolveAuth o = some a → a.getToken url = "" →
      requestParamsFinal url p o = spreadMerge defaultParams p ∧
      (∀ o2 : Option IRequestOptions, resolveAuth o2 = none →
        resolveHttpMethod o2 = resolveHttpMethod o →
        requestIssuedCall url p o = requestIssuedCall url p o2) := by
  intro o a ha hz
  have hfinal : requestParamsFinal url p o = spreadMerge defaultParams p := by
    simp only [requestParamsFinal, ha, hz]
    simp
  refine ⟨hfinal, fun o2 h2 hm => ?_⟩
  have hfinal2 : requestParamsFinal url p o2 = spreadMerge defaultParams p := by
    simp only [requestParamsFinal, h2]
    simp
  unfold requestIssuedCall
  rw [hfinal, hfinal2, hm]

theorem request_empty_token_not_added_witness :
    requestParamsFinal "https://example.com/a" []
        (some { authentication := some ⟨fun _ => ""⟩ }) =
      spreadMerge defaultParams [] ∧
    requestIssuedCall "https://example.com/a" []
        (some { authentication := some ⟨fun _ => ""⟩ }) =
      requestIssuedCall "https://example.com/a" [] none := by
  have h := request_empty_token_not_added "https://example.com/a" []
    (some { authentication := some ⟨fun _ => ""⟩ }) ⟨fun _ => ""⟩ rfl rfl
  exact ⟨h.1, h.2 none rfl rfl⟩

/-- C3: a dispatch with format `json`/`geojson` whose decoded body embeds an
`error` object carrying a `code` and a `message` rejects with a
`RequestError` whose message equals the embedded message and whose code
equals the embedded code (together with the sub-code, details and original
body). -/
theorem request_rejects_embedded_error (transport : FetchCall → Response)
    (url : String) (p : Params) (o : Option IRequestOptions)
    (fields errFields : List (String × Value)) (code : Value) (msg : String)
    (hf : isJsonLikeFormat (lookupParam "f" (requestParamsFinal url p o)) = true)
    (hr : (transport (requestIssuedCall url p o)).jsonBody = Value.obj fields)
    (he : lookupParam "error" fields = some (Value.obj errFields))
    (hc : lookupParam "code" errFields = some code)
    (hm : lookupParam "message" errFields = some (Value.str msg)) :
    request transport url p o = Except.error
      { message := msg
        code := code
        messageCode := lookupParam "messageCode" errFields
        details := lookupParam "details" errFields
        response := Value.obj fields } := by
  have hd : requestDecoded transport url p o = Decoded.json (Value.obj fields) := by
    unfold requestDecoded
    rcases hff : lookupParam "f" (requestParamsFinal url p o) with _ | v
    · rw [hff] at hf
      simp [isJsonLikeFormat] at hf
    · rw [hff] at hf
      cases v with
      | str s =>
        simp only [isJsonLikeFormat] at hf
        have hf2 : s = "json" ∨ s = "geojson" := by simpa using hf
        rcases hf2 with h | h
        · simp [decodeResponse, h, hr]
        · simp [decodeResponse, h, hr]
      | null => simp [isJsonLikeFormat] at hf
      | num n => simp [isJsonLikeFormat] at hf
      | bool b => simp [isJsonLikeFormat] at hf
      | blob bs => simp [isJsonLikeFormat] at hf
      | arr vs => simp [isJsonLikeFormat] at hf
      | obj fs => simp [isJsonLikeFormat] at hf
  simp only [request, hf, if_true, hd]
  simp only [checkForErrors, he, hc, hm]
  rfl

theorem request_rejects_embedded_error_witness :
    request
        (fun _ =>
          { jsonBody := Value.obj
              [("error", Value.obj [("code", Value.num 400), ("message", Value.str "Invalid token")])]
            textBody := ""
            blobBody := [] })
        "https://example.com/a" defaultParams none =
      Except.error
        { message := "Invalid token"
          code := Value.num 400
          messageCode := lookupParam "messageCode"
            [("code", Value.num 400), ("message", Value.str "Invalid token")]
          details := lookupParam "details"
            [("code", Value.num 400), ("message", Value.str "Invalid token")]
          response := Value.obj
            [("error", Value.obj [("code", Value.num 400), ("message", Value.str "Invalid token")])] } :=
  request_rejects_embedded_error
    (fun _ =>
      { jsonBody := Value.obj
          [("error", Value.obj [("code", Value.num 400), ("message", Value.str "Invalid token")])]
        textBody := ""
        blobBody := [] })
    "https://example.com/a" defaultParams none
    [("error", Value.obj [("code", Value.num 400), ("message", Value.str "Invalid token")])]
    [("code", Value.num 400), ("message", Value.str "Invalid token")]
    (Value.num 400) "Invalid token" rfl rfl rfl rfl rfl

/-- C9: `generateToken(url, {username, password})` issues exactly one
network call, to exactly the given url, whose form body carries the
`username`, `password` and `f=json` fields, and resolves with the decoded
body, whose `token` and `expires` fields are those of the response. -/
theorem generateToken_single_call (url u pw tok : String) (e : Int)
    (transport : FetchCall → Response)
    (htr : (transport (requestIssuedCall url (generateTokenParams ⟨u, pw⟩) none)).jsonBody =
      Value.obj [("token", Value.str tok), ("expires", Value.num e)]) :
    generateTokenCalls url ⟨u, pw⟩ =
      [requestIssuedCall url (generateTokenParams ⟨u, pw⟩) none] ∧
    (requestIssuedCall url (generateTokenParams ⟨u, pw⟩) none).url = url ∧
    (requestIssuedCall url (generateTokenParams ⟨u, pw⟩) none).body =
      some [("f", FormPart.str "json"), ("username", FormPart.str u),
            ("password", FormPart.str pw)] ∧
    generateToken transport url ⟨u, pw⟩ =
      Except.ok (Decoded.json
        (Value.obj [("token", Value.str tok), ("expires", Value.num e)])) := by
  refine ⟨rfl, rfl, rfl, ?_⟩
  have hd : requestDecoded transport url (generateTokenParams ⟨u, pw⟩) none =
      Decoded.json ((transport (requestIssuedCall url (generateTokenParams ⟨u, pw⟩) none)).jsonBody) :=
    rfl
  rw [htr] at hd
  have hj : isJsonLikeFormat
      (lookupParam "f" (requestParamsFinal url (generateTokenParams ⟨u, pw⟩) none)) = true := rfl
  show request transport url (generateTokenParams ⟨u, pw⟩) none = _
  simp only [request, hj, if_true, hd]
  rfl

theorem generateToken_single_call_witness :
    generateTokenCalls "https://www.arcgis.com/sharing/rest/generateToken" ⟨"Casey", "Jones"⟩ =
      [requestIssuedCall "https://www.arcgis.com/sharing/rest/generateToken"
        (generateTokenParams ⟨"Casey", "Jones"⟩) none] ∧
    (requestIssuedCall "https://www.arcgis.com/sharing/rest/generateToken"
        (generateTokenParams ⟨"Casey", "Jones"⟩) none).url =
      "https://www.arcgis.com/sharing/rest/generateToken" ∧
    (requestIssuedCall "https://www.arcgis.com/sharing/rest/generateToken"
        (generateTokenParams ⟨"Casey", "Jones"⟩) none).body =
      some [("f", FormPart.str "json"), ("username", FormPart.str "Casey"),
            ("password", FormPart.str "Jones")] ∧
    generateToken
        (fun _ =>
          { jsonBody := Value.obj [("token", Value.str "token"), ("expires", Value.num 1234567890)]
            textBody := ""
            blobBody := [] })
        "https://www.arcgis.com/sharing/rest/generateToken" ⟨"Casey", "Jones"⟩ =
      Except.ok (Decoded.json
        (Value.obj [("token", Value.str "token"), ("expires", Value.num 1234567890)])) :=
  generateToken_single_call "https://www.arcgis.com/sharing/rest/generateToken"
    "Casey" "Jones" "token" 1234567890
    (fun _ =>
      { jsonBody := Value.obj [("token", Value.str "token"), ("expires", Value.num 1234567890)]
        textBody := ""
        blobBody := [] })
    rfl

/-! ### Percent-encoding round trip -/

theorem char_toNat_lt (c : Char) : c.toNat < 1114112 := by
  rcases c.valid with h | ⟨h1, h2⟩
  · exact Nat.lt_trans h (by norm_num)
  · exact h2

theorem hex_digit_facts : ∀ x, x < 16 → hexVal (toHexDigit x) = x ∧
    (toHexDigit x).toNat ≠ 38 ∧ (toHexDigit x).toNat ≠ 61 := by decide

theorem utf8Bytes_lt (c : Char) : ∀ b ∈ utf8Bytes c, b < 256 := by
  intro b hb
  have hval := char_toNat_lt c
  simp only [utf8Bytes] at hb
  split at hb
  · simp only [List.mem_singleton] at hb
    omega
  · split at hb
    · simp only [List.mem_cons, List.not_mem_nil, or_false] at hb
      rcases hb with h | h <;> omega
    · split at hb
      · simp only [List.mem_cons, List.not_mem_nil, or_false] at hb
        rcases hb with h | h | h <;> omega
      · simp only [List.mem_cons, List.not_mem_nil, or_false] at hb
        rcases hb with h | h | h | h <;> omega

theorem utf8DecodeAux_none_cons (b : Nat) (rest : List Nat) :
    utf8DecodeAux none (b :: rest) =
      (if b < 128 then b :: utf8DecodeAux none rest
       else if b < 224 then utf8DecodeAux (some (b - 192, 1)) rest
       else if b < 240 then utf8DecodeAux (some (b - 224, 2)) rest
       else utf8DecodeAux (some (b - 240, 3)) rest) := rfl

theorem utf8DecodeAux_some_cons (acc k b : Nat) (rest : List Nat) :
    utf8DecodeAux (some (acc, k)) (b :: rest) =
      (if k ≤ 1 then (acc * 64 + (b - 128)) :: utf8DecodeAux none rest
       else utf8DecodeAux (some (acc * 64 + (b - 128), k - 1)) rest) := rfl

set_option maxRecDepth 8192 in
theorem utf8Decode_utf8Bytes (c : Char) (bs : List Nat) :
    utf8Decode (utf8Bytes c ++ bs) = c.toNat :: utf8Decode bs := by
  have hval : c.toNat < 1114112 := char_toNat_lt c
  show utf8DecodeAux none (utf8Bytes c ++ bs) = c.toNat :: utf8DecodeAux none bs
  simp only [utf8Bytes]
  by_cases h1 : c.toNat < 128
  · rw [if_pos h1, List.cons_append, List.nil_append, utf8DecodeAux_none_cons, if_pos h1]
  · rw [if_neg h1]
    by_cases h2 : c.toNat < 2048
    · rw [if_pos h2, List.cons_append, List.cons_append, List.nil_append,
        utf8DecodeAux_none_cons,
        if_neg (by omega : ¬(192 + c.toNat / 64 < 128)),
        if_pos (by omega : 192 + c.toNat / 64 < 224),
        utf8DecodeAux_some_cons, if_pos (by omega : (1 : Nat) ≤ 1)]
      congr 1
      omega
    · rw [if_neg h2]
      by_cases h3 : c.toNat < 65536
      · rw [if_pos h3, List.cons_append, List.cons_append, List.cons_append,
          List.nil_append, utf8DecodeAux_none_cons,
          if_neg (by omega : ¬(224 + c.toNat / 4096 < 128)),
          if_neg (by omega : ¬(224 + c.toNat / 4096 < 224)),
          if_pos (by omega : 224 + c.toNat / 4096 < 240),
          utf8DecodeAux_some_cons, if_neg (by omega : ¬(2 : Nat) ≤ 1),
          utf8DecodeAux_some_cons, if_pos (by omega : (2 : Nat) - 1 ≤ 1)]
        congr 1
        omega
      · rw [if_neg h3, List.cons_append, List.cons_append, List.cons_append,
          List.cons_append, List.nil_append, utf8DecodeAux_none_cons,
          if_neg (by omega : ¬(240 + c.toNat / 262144 < 128)),
          if_neg (by omega : ¬(240 + c.toNat / 262144 < 224)),
          if_neg (by omega : ¬(240 + c.toNat / 262144 < 240)),
          utf8DecodeAux_some_cons, if_neg (by omega : ¬(3 : Nat) ≤ 1),
          utf8DecodeAux_some_cons, if_neg (by omega : ¬(3 : Nat) - 1 ≤ 1),
          utf8DecodeAux_some_cons, if_pos (by omega : (3 : Nat) - 1 - 1 ≤ 1)]
        congr 1
        omega

theorem decodeBytesAux_none_cons (c : Char) (rest : List Char) :
    decodeBytesAux none (c :: rest) =
      (if c == '%' then decodeBytesAux (some none) rest
       else c.toNat :: decodeBytesAux none rest) := rfl

theorem decodeBytes_escapes (bs : List Nat) (h : ∀ b ∈ bs, b < 256) (cs : List Char) :
    decodeBytes (bs.flatMap percentByte ++ cs) = bs ++ decodeBytes cs := by
  induction bs with
  | nil => simp [decodeBytes]
  | cons b bs ih =>
    have hb : b < 256 := h b (List.mem_cons_self _ _)
    have h16a : hexVal (toHexDigit (b / 16)) = b / 16 := (hex_digit_facts _ (by omega)).1
    have h16b : hexVal (toHexDigit (b % 16)) = b % 16 := (hex_digit_facts _ (by omega)).1
    have ihr := ih (fun x hx => h x (List.mem_cons_of_mem _ hx))
    show decodeBytesAux none _ = _
    simp only [List.flatMap_cons, percentByte, List.append_assoc, List.cons_append,
      List.nil_append]
    rw [decodeBytesAux_none_cons, if_pos (beq_self_eq_true '%')]
    show decodeBytesAux (some (some (hexVal (toHexDigit (b / 16)))))
        (toHexDigit (b % 16) :: (bs.flatMap percentByte ++ cs)) = _
    show (hexVal (toHexDigit (b / 16)) * 16 + hexVal (toHexDigit (b % 16))) ::
        decodeBytesAux none (bs.flatMap percentByte ++ cs) = _
    rw [h16a, h16b]
    rw [show decodeBytesAux none (bs.flatMap percentByte ++ cs) = bs ++ decodeBytes cs from ihr]
    rw [show b / 16 * 16 + b % 16 = b by omega]

theorem unreserved_lt (c : Char) (hu : unreservedChar c = true) :
    c.toNat < 128 ∧ c.toNat ≠ 37 ∧ c.toNat ≠ 38 ∧ c.toNat ≠ 61 := by
  simp [unreservedChar] at hu
  omega

theorem decodeBytes_encodeChar (c : Char) (cs : List Char) :
    decodeBytes (encodeChar c ++ cs) = utf8Bytes c ++ decodeBytes cs := by
  unfold encodeChar
  split
  · next hu =>
    have hlt := unreserved_lt c hu
    have hcc : c ≠ '%' := by
      intro hcc
      rw [hcc] at hlt
      exact hlt.2.1 rfl
    have hne : (c == '%') = false := by simpa using hcc
    rw [List.cons_append, List.nil_append]
    show decodeBytesAux none (c :: cs) = _
    rw [decodeBytesAux_none_cons, hne]
    simp only [Bool.false_eq_true, if_false, ite_false]
    simp only [utf8Bytes]
    rw [if_pos hlt.1]
    rfl
  · exact decodeBytes_escapes _ (utf8Bytes_lt c) cs

theorem decodeBytes_encode_list (l : List Char) :
    decodeBytes (l.flatMap encodeChar) = l.flatMap utf8Bytes := by
  induction l with
  | nil => rfl
  | cons c l ih =>
    simp only [List.flatMap_cons]
    rw [decodeBytes_encodeChar, ih]

theorem utf8Decode_encode_list (l : List Char) :
    utf8Decode (l.flatMap utf8Bytes) = l.map Char.toNat := by
  induction l with
  | nil => rfl
  | cons c l ih =>
    simp only [List.flatMap_cons, List.map_cons]
    rw [utf8Decode_utf8Bytes, ih]

theorem decodeComponent_encodeComponent (s : String) :
    decodeComponent (encodeComponent s) = s := by
  show String.mk ((utf8Decode (decodeBytes (s.data.flatMap encodeChar))).map Char.ofNat) = s
  rw [decodeBytes_encode_list, utf8Decode_encode_list]
  have : (s.data.map Char.toNat).map Char.ofNat = s.data := by
    rw [List.map_map]
    simp [Function.comp_def]
  rw [this]

theorem notMem_encodeChar (c x : Char) (hx : x.toNat = 38 ∨ x.toNat = 61) :
    x ∉ encodeChar c := by
  unfold encodeChar
  split
  · next hu =>
    intro hmem
    rcases List.mem_singleton.mp hmem with rfl
    have := unreserved_lt x hu
    rcases hx with h | h <;> omega
  · intro hmem
    rcases List.mem_flatMap.mp hmem with ⟨b, hb, hxb⟩
    have hblt : b < 256 := utf8Bytes_lt c b hb
    simp only [percentByte, List.mem_cons, List.not_mem_nil, or_false] at hxb
    rcases hxb with rfl | rfl | rfl
    · rcases hx with h | h <;> simp at h
    · rcases hx with h | h
      · exact (hex_digit_facts (b / 16) (by omega)).2.1 h
      · exact (hex_digit_facts (b / 16) (by omega)).2.2 h
    · rcases hx with h | h
      · exact (hex_digit_facts (b % 16) (by omega)).2.1 h
      · exact (hex_digit_facts (b % 16) (by omega)).2.2 h

theorem notMem_encodeComponent (x : Char) (hx : x.toNat = 38 ∨ x.toNat = 61)
    (s : String) : x ∉ (encodeComponent s).data := by
  intro hmem
  have hmem2 : x ∈ s.data.flatMap encodeChar := hmem
  rcases List.mem_flatMap.mp hmem2 with ⟨c, _, hc⟩
  exact notMem_encodeChar c x hx hc

theorem encodeComponent_no_eqSign (s : String) :
    ∀ x ∈ (encodeComponent s).data, ¬((x == '=') = true) := by
  intro x hx heq
  have hxe : x = '=' := by simpa using heq
  subst hxe
  exact notMem_encodeComponent '=' (Or.inr rfl) s hx

theorem encodeComponent_no_amp (s : String) :
    ∀ x ∈ (encodeComponent s).data, ¬((x == '&') = true) := by
  intro x hx heq
  have hxe : x = '&' := by simpa using heq
  subst hxe
  exact notMem_encodeComponent '&' (Or.inl rfl) s hx

theorem splitOn_chunk (a b : List Char) (ha : ∀ x ∈ a, ¬((x == '=') = true))
    (hb : ∀ x ∈ b, ¬((x == '=') = true)) :
    (a ++ '=' :: b).splitOn '=' = [a, b] := by
  unfold List.splitOn
  rw [List.splitOnP_first _ _ ha '=' rfl b, List.splitOnP_eq_single _ _ hb]

theorem splitOnP_joinAmp (chunks : List (List Char)) (hne : chunks ≠ [])
    (hx : ∀ ch ∈ chunks, ∀ x ∈ ch, ¬((x == '&') = true)) :
    (joinAmp chunks).splitOnP (fun x => x == '&') = chunks := by
  induction chunks with
  | nil => exact absurd rfl hne
  | cons c rest ih =>
    cases rest with
    | nil =>
      show (joinAmp [c]).splitOnP (fun x => x == '&') = [c]
      unfold joinAmp
      exact List.splitOnP_eq_single _ _ (hx c (List.mem_cons_self _ _))
    | cons c2 rest2 =>
      show (joinAmp (c :: c2 :: rest2)).splitOnP (fun x => x == '&') = c :: c2 :: rest2
      unfold joinAmp
      rw [List.splitOnP_first _ _ (hx c (List.mem_cons_self _ _)) '&' rfl]
      rw [ih (by simp) (fun ch hch => hx ch (List.mem_cons_of_mem _ hch))]

theorem string_mk_data (s : String) : String.mk s.data = s := rfl

theorem parseChunk_encode (q : String × String) :
    parseChunk ((encodeComponent q.1).data ++ '=' :: (encodeComponent q.2).data) = q := by
  unfold parseChunk
  rw [splitOn_chunk _ _ (encodeComponent_no_eqSign q.1) (encodeComponent_no_eqSign q.2)]
  show (decodeComponent (String.mk (encodeComponent q.1).data),
        decodeComponent (String.mk (encodeComponent q.2).data)) = q
  rw [string_mk_data, string_mk_data, decodeComponent_encodeComponent,
    decodeComponent_encodeComponent]

theorem chunk_no_amp (k v : String) :
    ∀ x ∈ (encodeComponent k).data ++ '=' :: (encodeComponent v).data,
      ¬((x == '&') = true) := by
  intro x hx heq
  have hxe : x = '&' := by simpa using heq
  subst hxe
  rcases List.mem_append.mp hx with h | h
  · exact notMem_encodeComponent '&' (Or.inl rfl) k h
  · rcases List.mem_cons.mp h with h | h
    · exact absurd h (by decide)
    · exact notMem_encodeComponent '&' (Or.inl rfl) v h

theorem decodeQueryString_encode_pairs (pairs : List (String × String)) :
    decodeQueryString (String.mk (joinAmp (pairs.map (fun q =>
      (encodeComponent q.1).data ++ '=' :: (encodeComponent q.2).data)))) = pairs := by
  cases pairs with
  | nil => rfl
  | cons q rest =>
    have hne : joinAmp ((q :: rest).map (fun q =>
        (encodeComponent q.1).data ++ '=' :: (encodeComponent q.2).data)) ≠ [] := by
      rw [List.map_cons]
      cases rest with
      | nil =>
        show (encodeComponent q.1).data ++ '=' :: (encodeComponent q.2).data ≠ []
        simp
      | cons q2 rest2 =>
        rw [List.map_cons]
        unfold joinAmp
        simp
    unfold decodeQueryString
    rw [if_neg (by simpa using hne)]
    show ((joinAmp ((q :: rest).map (fun q =>
        (encodeComponent q.1).data ++ '=' :: (encodeComponent q.2).data))).splitOnP
          (fun x => x == '&')).map parseChunk = q :: rest
    rw [splitOnP_joinAmp _ (by simp)
      (fun ch hch => by
        rcases List.mem_map.mp hch with ⟨pq, _, hpq⟩
        rw [← hpq]
        exact chunk_no_amp pq.1 pq.2)]
    rw [List.map_map]
    have hid : (parseChunk ∘ fun q =>
        (encodeComponent q.1).data ++ '=' :: (encodeComponent q.2).data) = id :=
      funext parseChunk_encode
    rw [hid, List.map_id]

theorem queryStringPairs_scalar (p : Params) (h : ∀ kv ∈ p, isScalarValue kv.2 = true) :
    queryStringPairs p = p.map (fun kv => (kv.1, paramToString kv.2)) := by
  induction p with
  | nil => rfl
  | cons kv rest ih =>
    obtain ⟨k, v⟩ := kv
    have hs := h (k, v) (List.mem_cons_self _ _)
    have ihr := ih (fun q hq => h q (List.mem_cons_of_mem _ hq))
    unfold queryStringPairs
    rw [List.flatMap_cons]
    unfold queryStringPairs at ihr
    rw [ihr, List.map_cons]
    cases v with
    | str s => rfl
    | num n => rfl
    | bool b => rfl
    | null => simp [isScalarValue] at hs
    | blob bs => simp [isScalarValue] at hs
    | arr vs => simp [isScalarValue] at hs
    | obj fs => simp [isScalarValue] at hs

/-- C8: the query-string encoder round-trips — for a parameter mapping of
scalar values, percent-decoding the string produced by `encodeQueryString`
reconstructs the original key/value pairs (each scalar value in its textual
query-string form; string values verbatim). -/
theorem encodeQueryString_roundtrip (p : Params)
    (h : ∀ kv ∈ p, isScalarValue kv.2 = true) :
    decodeQueryString (encodeQueryString p) =
      p.map (fun kv => (kv.1, paramToString kv.2)) := by
  unfold encodeQueryString
  rw [queryStringPairs_scalar p h]
  exact decodeQueryString_encode_pairs (p.map (fun kv => (kv.1, paramToString kv.2)))

theorem encodeQueryString_roundtrip_witness :
    decodeQueryString (encodeQueryString
        [("q", Value.str "parks & rec"), ("n", Value.num 5), ("b", Value.bool true)]) =
      [("q", "parks & rec"), ("n", "5"), ("b", "true")] := by
  have h := encodeQueryString_roundtrip
    [("q", Value.str "parks & rec"), ("n", Value.num 5), ("b", Value.bool true)]
    (by decide)
  exact h.trans rfl

end ArcGIS
